import Mathlib

/-!
Shallow embedding of the incremental video-transcript processing pipeline of
`google-search-agent.py` and of the corpus manager `rag_manager.py`.

File I/O is modelled as a pure map from file names to records, the remote
collaborators (transcript fetcher, embedding client, corpus service) as
explicit oracles, and each engine run additionally returns the list of
remote calls and persistence events it performed, so that statements about
"no remote call happens" become statements about that event list.
-/

namespace GFS

/-- Processing-status mapping stored in each transcript record.  The Python
code keeps an open `dict` here but only ever reads or writes these three
keys, so a fixed record of optional fields is an exact model of it (an
absent key is `none`). -/
structure Status where
  transcript_extracted : Option Bool
  embedded : Option Bool
  last_embedded : Option String
deriving DecidableEq

/-- A `status_updates` argument of `save_transcript`: the sub-dict of status
keys being written by one call (a field is `none` when the key is not
present in the update dict). -/
structure StatusUpdates where
  transcript_extracted : Option Bool
  embedded : Option Bool
  last_embedded : Option String
deriving DecidableEq

/-- Python `dict.update` on the status mapping (line 507 of
`google-search-agent.py`): keys present in the update overwrite, keys absent
from the update are preserved. -/
def Status.update (s : Status) (u : StatusUpdates) : Status where
  transcript_extracted := match u.transcript_extracted with
    | some v => some v
    | none => s.transcript_extracted
  embedded := match u.embedded with
    | some v => some v
    | none => s.embedded
  last_embedded := match u.last_embedded with
    | some v => some v
    | none => s.last_embedded

/-- The status dict created by line 503 when no `status` key exists. -/
def emptyStatus : Status := ⟨none, none, none⟩

/-- One persisted transcript record (the JSON object written by
`save_transcript`).  Records written without a `status` key behave exactly
like records with an empty status dict everywhere in the program, so
`status` is kept total with `emptyStatus` as the empty dict. -/
structure VideoRecord where
  video_id : String
  url : String
  title : String
  transcript : Option String
  timestamp : Option String
  status : Status
deriving DecidableEq

/-- The file system seen by the program: a map from file path to the record
stored there (`none` = no such file). -/
abbrev FileStore := String → Option VideoRecord

def emptyFS : FileStore := fun _ => none

/-- ASCII reading of the regex class `[A-Za-z0-9_]` used on line 480. -/
def isWordChar (c : Char) : Bool := c.isAlphanum || c = '_'

/-- ASCII reading of the regex whitespace class used on line 480. -/
def isSpaceChar (c : Char) : Bool :=
  c = ' ' || c = '\t' || c = '\n' || c = '\r' || c = '\x0b' || c = '\x0c'

/-- Line 480: drop every character outside word/space/hyphen, turn spaces
into underscores and keep at most 50 characters (ASCII model of the Python
regex classes; all titles appearing in concrete statements below are
ASCII, where this model is exact). -/
def cleanTitle (t : String) : String :=
  String.mk (((t.toList.filter (fun c => isWordChar c || isSpaceChar c || c = '-')).map
    (fun c => if c = ' ' then '_' else c)).take 50)

/-- Python `video_title or "Unknown Title"` of line 493 (`None` and the
empty string are falsy). -/
def titleOr : Option String → String
  | some t => if t = "" then "Unknown Title" else t
  | none => "Unknown Title"

/-- Lines 478-483: the file name targeted by `save_transcript`.  A truthy
title different from the sentinel adds a sanitized fragment. -/
def saveFilename (video_id : String) (video_title : Option String) : String :=
  match video_title with
  | some t =>
      if t ≠ "" ∧ t ≠ "Unknown Title" then
        "transcripts/transcript_" ++ video_id ++ "_" ++ cleanTitle t ++ ".json"
      else "transcripts/transcript_" ++ video_id ++ ".json"
  | none => "transcripts/transcript_" ++ video_id ++ ".json"

/-- Lines 490-494: the record created when the target file does not exist. -/
def freshRecord (video_id url : String) (video_title : Option String) : VideoRecord :=
  { video_id := video_id, url := url, title := titleOr video_title,
    transcript := none, timestamp := none, status := emptyStatus }

/-- Lines 486-494: load the target file if present, otherwise start a fresh
record. -/
def loadOrFresh (fs : FileStore) (filename video_id url : String)
    (video_title : Option String) : VideoRecord :=
  match fs filename with
  | some d => d
  | none => freshRecord video_id url video_title

/-- Lines 496-507: transcript and timestamp are written only when a truthy
(non-`None`, non-empty) transcript argument is given; the status updates are
dict-merged into the existing status. -/
def saveRecordUpdate (data0 : VideoRecord) (transcript : Option String)
    (status_updates : StatusUpdates) (now : String) : VideoRecord :=
  let data1 := match transcript with
    | some t =>
        if t = "" then data0
        else { data0 with transcript := some t, timestamp := some now }
    | none => data0
  { data1 with status := Status.update data1.status status_updates }

/-- Lines 462-517, `save_transcript`.  `now` stands for `str(datetime.now())`.
Returns the updated store and the path that was written. -/
def save_transcript (fs : FileStore) (video_id : String) (transcript : Option String)
    (url : String) (status_updates : StatusUpdates) (video_title : Option String)
    (now : String) : FileStore × String :=
  let filename := saveFilename video_id video_title
  let data2 := saveRecordUpdate (loadOrFresh fs filename video_id url video_title)
    transcript status_updates now
  (fun n => if n = filename then some data2 else fs n, filename)

/-- Lines 520-535, `load_transcript_data`: reads `transcript_<id>.json` from
the current directory (note: no `transcripts/` prefix). -/
def load_transcript_data (fs : FileStore) (video_id : String) : Option VideoRecord :=
  fs ("transcript_" ++ video_id ++ ".json")

/-- External collaborators of the engine: the transcript fetcher
(`get_video_transcript`, returning an optional transcript and a title) and
the embedding client (`embed_transcript_with_gemini`, returning an optional
vector). -/
structure Env where
  fetch : String → Option String × String
  embed : String → Option (List Int)

/-- Remote calls and persistence actions performed during a run. -/
inductive Event where
  | fetch (video_id : String)
  | save (video_id : String) (transcript : Option String) (status_updates : StatusUpdates)
  | embedCall (transcript : Option String)
  | saveEmb (video_id : String)
deriving DecidableEq

def isFetch : Event → Bool
  | Event.fetch _ => true
  | _ => false

def isEmbedCall : Event → Bool
  | Event.embedCall _ => true
  | _ => false

/-- A persistence event that writes `transcript_extracted = true`. -/
def saveTE : Event → Bool
  | Event.save _ _ su =>
      (match su.transcript_extracted with
       | some b => b
       | none => false)
  | _ => false

/-- Python truthiness of the value returned by the embedding client
(`None` and the empty vector are falsy). -/
def truthyEmb : Option (List Int) → Bool
  | none => false
  | some v => !v.isEmpty

/-- Result of one `process_video_smart` run: the returned pair, the final
file store and the event trace. -/
structure ProcOut where
  ret_data : Option VideoRecord
  ret_id : Option String
  fs : FileStore
  events : List Event

/-- Lines 696-710 (equally 738-750): attempt the embedding of `transcript`;
on success write the embedding artifact and persist
`embedded = true, last_embedded = now`; on failure change nothing. -/
def embedStep (env : Env) (fs : FileStore) (video_id url : String)
    (transcript : Option String) (video_title : Option String) (now : String) :
    FileStore × List Event :=
  let embeddings := match transcript with
    | none => none
    | some t => env.embed t
  if truthyEmb embeddings then
    let fs2 := (save_transcript fs video_id none url ⟨none, some true, some now⟩
      video_title now).1
    (fs2, [Event.embedCall transcript, Event.saveEmb video_id,
      Event.save video_id none ⟨none, some true, some now⟩])
  else (fs, [Event.embedCall transcript])

/-- Lines 634-757, `process_video_smart`, after the video id has been
extracted from the URL (URL parsing is the external resolver).  Faithful to
the source: terminal shortcut when both flags are set and no force-reembed;
reuse of the stored transcript when `transcript_extracted`; otherwise fetch,
abort on fetch failure, persist the transcript with
`transcript_extracted = true`, then embed if requested; at the end the
returned record is re-read through `load_transcript_data`. -/
def process_video_smart (env : Env) (fs : FileStore) (video_id url : String)
    (force_reembed do_embedding : Bool) (video_title0 : Option String)
    (now : String) : ProcOut :=
  match load_transcript_data fs video_id with
  | some existing_data =>
    if existing_data.status.transcript_extracted.getD false
        && existing_data.status.embedded.getD false && !force_reembed then
      ⟨some existing_data, some video_id, fs, []⟩
    else if existing_data.status.transcript_extracted.getD false then
      let transcript := existing_data.transcript
      let step :=
        if do_embedding && (!(existing_data.status.embedded.getD false) || force_reembed) then
          embedStep env fs video_id url transcript video_title0 now
        else (fs, [])
      ⟨load_transcript_data step.1 video_id, some video_id, step.1, step.2⟩
    else
      let fetched := env.fetch video_id
      let video_title :=
        if fetched.2 ≠ "" ∧ fetched.2 ≠ "Unknown Title" then some fetched.2
        else video_title0
      match fetched.1 with
      | none => ⟨none, none, fs, [Event.fetch video_id]⟩
      | some t =>
        if t = "" then ⟨none, none, fs, [Event.fetch video_id]⟩
        else
          let fs1 := (save_transcript fs video_id (some t) url ⟨some true, none, none⟩
            video_title now).1
          let step :=
            if do_embedding && (!(existing_data.status.embedded.getD false) || force_reembed) then
              embedStep env fs1 video_id url (some t) video_title now
            else (fs1, [])
          ⟨load_transcript_data step.1 video_id, some video_id, step.1,
            Event.fetch video_id :: Event.save video_id (some t) ⟨some true, none, none⟩
              :: step.2⟩
  | none =>
    let fetched := env.fetch video_id
    let video_title :=
      if fetched.2 ≠ "" ∧ fetched.2 ≠ "Unknown Title" then some fetched.2
      else video_title0
    match fetched.1 with
    | none => ⟨none, none, fs, [Event.fetch video_id]⟩
    | some t =>
      if t = "" then ⟨none, none, fs, [Event.fetch video_id]⟩
      else
        let fs1 := (save_transcript fs video_id (some t) url ⟨some true, none, none⟩
          video_title now).1
        let step :=
          if do_embedding then embedStep env fs1 video_id url (some t) video_title now
          else (fs1, [])
        ⟨load_transcript_data step.1 video_id, some video_id, step.1,
          Event.fetch video_id :: Event.save video_id (some t) ⟨some true, none, none⟩
            :: step.2⟩

/-- Result of a playlist batch run. -/
structure PlaylistOut where
  processed : List String
  failed : List String
  fs : FileStore

/-- Lines 594-631, `process_playlist`, after the playlist has been resolved
to its ordered video-id list (`titles` is the global `video_titles` map with
its `"Unknown Title"` default already applied).  A video counts as processed
exactly when the pair returned by `process_video_smart` is truthy in both
components, else its input id goes to the failed list; the loop never
aborts. -/
def process_playlist_core (env : Env) (fs : FileStore) (titles : String → String)
    (playlist_id : String) (force_reembed do_embedding : Bool) (now : String) :
    List String → PlaylistOut
  | [] => ⟨[], [], fs⟩
  | video_id :: rest =>
    let video_url := "https://www.youtube.com/watch?v=" ++ video_id ++ "&list=" ++ playlist_id
    let out := process_video_smart env fs video_id video_url force_reembed do_embedding
      (some (titles video_id)) now
    let tail := process_playlist_core env out.fs titles playlist_id force_reembed
      do_embedding now rest
    match out.ret_data, out.ret_id with
    | some _, some pid =>
        if pid = "" then ⟨tail.processed, video_id :: tail.failed, tail.fs⟩
        else ⟨pid :: tail.processed, tail.failed, tail.fs⟩
    | _, _ => ⟨tail.processed, video_id :: tail.failed, tail.fs⟩

/-- Line 264: the direct-transcript context budget. -/
def max_context_length : Nat := 4000

/-- Line 266: the literal `"..."` appended on truncation. -/
def truncMarker : List Char := ['.', '.', '.']

/-- Lines 263-266 of `answer_question_with_gemini`: the transcript context
placed into the generation prompt (text as its sequence of characters). -/
def qaContext (transcript_text : List Char) : List Char :=
  if transcript_text.length > max_context_length then
    transcript_text.take max_context_length ++ truncMarker
  else transcript_text

/-- A corpus visible on the remote service. -/
structure Corpus where
  name : String
  display_name : String
deriving DecidableEq

/-- Result of one `get_or_create_corpus` call: the returned handle, the
remote corpus list afterwards, and whether a create call was issued. -/
structure GocOut where
  handle : Option String
  corpora : List Corpus
  created : Bool
deriving DecidableEq

/-- Lines 17-42 of `rag_manager.py`, `RAGManager.get_or_create_corpus`.
`corpora` is the remote corpus list; the listing request carries
`page_size = 10`, so only the first ten corpora are scanned.  `listOk` and
`createOk` say whether the two remote calls succeed (a failed listing is
swallowed and falls through to creation); `newName` is the server-assigned
resource name of a newly created corpus. -/
def get_or_create_corpus (corpora : List Corpus) (listOk createOk : Bool)
    (newName : String) (display_name : String) : GocOut :=
  let found :=
    if listOk then (corpora.take 10).find? (fun c => c.display_name == display_name)
    else none
  match found with
  | some c => ⟨some c.name, corpora, false⟩
  | none =>
    if createOk then ⟨some newName, corpora ++ [⟨newName, display_name⟩], true⟩
    else ⟨none, corpora, true⟩

/-- Lines 66-70 of `rag_manager.py`: `for i in range(0, len(text), chunk_size)`
slicing `text[i:i+chunk_size]`.  Structural fuel recursion (the fuel is the
text length, which bounds the number of iterations whenever
`chunk_size > 0`); `chunkSplit` below instantiates the fuel. -/
def chunkSplitGo (chunk_size : Nat) : Nat → List Char → List (List Char)
  | _, [] => []
  | 0, _ :: _ => []
  | fuel + 1, ch :: rest =>
      (ch :: rest).take chunk_size :: chunkSplitGo chunk_size fuel ((ch :: rest).drop chunk_size)

/-- The chunk list produced by `ingest_text` (a zero `chunk_size` raises
`ValueError` in Python's `range`; it is mapped to the empty list and every
statement below assumes `0 < chunk_size`). -/
def chunkSplit (text : List Char) (chunk_size : Nat) : List (List Char) :=
  if chunk_size = 0 then [] else chunkSplitGo chunk_size text.length text

/-- Lines 76-85: the chunk-creation loop.  `ok i` says whether the i-th
`create_chunk` call succeeds; a failed call is caught, logged and skipped,
and the loop continues; `count` grows only on success. -/
def ingestLoop (ok : Nat → Bool) : List (List Char) → Nat → Nat → Nat
  | [], _, count => count
  | _ :: rest, i, count => ingestLoop ok rest (i + 1) (if ok i then count + 1 else count)

/-- Lines 61-88, `RAGManager.ingest_text`: split into chunks, create them one
by one, return the number successfully written. -/
def ingest_text (ok : Nat → Bool) (text : List Char) (chunk_size : Nat) : Nat :=
  ingestLoop ok (chunkSplit text chunk_size) 0 0

/-- One `save_transcript` call in a sequence on a fixed video: its transcript
argument, status updates and timestamp. -/
structure SaveCall where
  transcript : Option String
  status_updates : StatusUpdates
  now : String
deriving DecidableEq

/-- Python truthiness of a transcript argument. -/
def truthyTranscript : Option String → Bool
  | none => false
  | some s => if s = "" then false else true

/-- Field-wise last-write-wins merge of one save call into a record, as the
specification describes it: transcript and timestamp are overwritten only
when a truthy transcript is supplied, status updates are shallow-merged, and
no other field is touched. -/
def mergeSpec (r : VideoRecord) (c : SaveCall) : VideoRecord :=
  { r with
    transcript := if truthyTranscript c.transcript then c.transcript else r.transcript
    timestamp := if truthyTranscript c.transcript then some c.now else r.timestamp
    status := Status.update r.status c.status_updates }

/-- Run a sequence of `save_transcript` calls on one video id with a fixed
title argument. -/
def foldSaves (video_id url : String) (video_title : Option String) :
    FileStore → List SaveCall → FileStore
  | fs, [] => fs
  | fs, c :: cs =>
      foldSaves video_id url video_title
        (save_transcript fs video_id c.transcript url c.status_updates video_title c.now).1 cs

/-! ### Store lemmas -/

theorem save_transcript_self (fs : FileStore) (video_id : String) (tr : Option String)
    (url : String) (su : StatusUpdates) (vt : Option String) (now : String) :
    (save_transcript fs video_id tr url su vt now).1 (saveFilename video_id vt)
      = some (saveRecordUpdate (loadOrFresh fs (saveFilename video_id vt) video_id url vt)
          tr su now) := by
  simp [save_transcript]

theorem save_transcript_other (fs : FileStore) (video_id : String) (tr : Option String)
    (url : String) (su : StatusUpdates) (vt : Option String) (now : String)
    (n : String) (hn : n ≠ saveFilename video_id vt) :
    (save_transcript fs video_id tr url su vt now).1 n = fs n := by
  simp [save_transcript, hn]

theorem saveRecordUpdate_merge (r : VideoRecord) (c : SaveCall) :
    saveRecordUpdate r c.transcript c.status_updates c.now = mergeSpec r c := by
  rcases c with ⟨tr, su, now⟩
  cases tr with
  | none => simp [saveRecordUpdate, mergeSpec, truthyTranscript]
  | some t =>
    by_cases ht : t = "" <;>
      simp [saveRecordUpdate, mergeSpec, truthyTranscript, ht]

theorem foldSaves_cons (video_id url : String) (video_title : Option String) :
    ∀ (cs : List SaveCall) (c : SaveCall) (fs : FileStore),
      foldSaves video_id url video_title fs (c :: cs) (saveFilename video_id video_title)
        = some ((c :: cs).foldl mergeSpec
            (loadOrFresh fs (saveFilename video_id video_title) video_id url video_title))
      ∧ ∀ n, n ≠ saveFilename video_id video_title →
          foldSaves video_id url video_title fs (c :: cs) n = fs n := by
  intro cs
  induction cs with
  | nil =>
    intro c fs
    constructor
    · show (save_transcript fs video_id c.transcript url c.status_updates video_title c.now).1
          (saveFilename video_id video_title) = _
      rw [save_transcript_self, saveRecordUpdate_merge]
      rfl
    · intro n hn
      exact save_transcript_other fs video_id c.transcript url c.status_updates
        video_title c.now n hn
  | cons c2 cs2 ih =>
    intro c fs
    have hstep := ih c2 (save_transcript fs video_id c.transcript url c.status_updates
      video_title c.now).1
    have hload : loadOrFresh
        (save_transcript fs video_id c.transcript url c.status_updates video_title c.now).1
        (saveFilename video_id video_title) video_id url video_title
        = mergeSpec (loadOrFresh fs (saveFilename video_id video_title) video_id url
            video_title) c := by
      rw [loadOrFresh, save_transcript_self, saveRecordUpdate_merge]
    constructor
    · show foldSaves video_id url video_title _ (c2 :: cs2) _ = _
      rw [hstep.1, hload]
      rfl
    · intro n hn
      have h1 := hstep.2 n hn
      have h2 := save_transcript_other fs video_id c.transcript url c.status_updates
        video_title c.now n hn
      exact h1.trans h2

/-! ### Claim C3 -/

/-- C3 fails as stated: with titles varying across calls the calls land in
different files.  After a transcript-only save (no title) followed by a
status-only save (title "Nice") on the same `video_id`, the claimed merged
record would carry both the transcript "T" and `embedded = true`; instead
the store holds two records, the one under the title-fragment path missing
the transcript and the plain-path one missing the embedded flag, so no
stored record equals the field-wise merge of the two calls. -/
theorem c3_title_variation_breaks_merge :
    ((((save_transcript
        (save_transcript emptyFS ("v") (some ("T")) ("u") ⟨some true, none, none⟩
          none ("t1")).1
        ("v") none ("u") ⟨none, some true, none⟩ (some ("Nice")) ("t2")).1)
        ("transcripts/transcript_v_Nice.json")).map
        (fun r => (r.transcript, r.status.embedded))) = some (none, some true)
    ∧ ((((save_transcript
        (save_transcript emptyFS ("v") (some ("T")) ("u") ⟨some true, none, none⟩
          none ("t1")).1
        ("v") none ("u") ⟨none, some true, none⟩ (some ("Nice")) ("t2")).1)
        ("transcripts/transcript_v.json")).map
        (fun r => (r.transcript, r.status.embedded))) = some (some ("T"), none) := by
  decide

/-- C3 (amended): for every sequence of `save_transcript` calls on one
`video_id` that share one title argument (so that every call addresses the
same file), the final record stored at that file equals the field-wise
last-write-wins merge of all calls — transcript and timestamp overwritten
only when a truthy transcript is supplied, status updates shallow-merged —
and no other file of the store is touched. -/
theorem c3_merge_invariant_fixed_title (video_id url : String)
    (video_title : Option String) (fs : FileStore) (calls : List SaveCall)
    (hne : calls ≠ []) :
    foldSaves video_id url video_title fs calls (saveFilename video_id video_title)
      = some (calls.foldl mergeSpec
          (loadOrFresh fs (saveFilename video_id video_title) video_id url video_title))
    ∧ ∀ n, n ≠ saveFilename video_id video_title →
        foldSaves video_id url video_title fs calls n = fs n := by
  cases calls with
  | nil => exact absurd rfl hne
  | cons c cs => exact foldSaves_cons video_id url video_title cs c fs

/-- Witness for C3: a concrete transcript-then-status sequence with a fixed
(absent) title satisfies the merge invariant. -/
theorem c3_merge_witness :
    ([⟨some ("T"), ⟨some true, none, none⟩, "t1"⟩,
      ⟨none, ⟨none, some true, some ("t2")⟩, "t2"⟩] : List SaveCall) ≠ []
    ∧ foldSaves ("v") ("u") none emptyFS
        [⟨some ("T"), ⟨some true, none, none⟩, "t1"⟩,
         ⟨none, ⟨none, some true, some ("t2")⟩, "t2"⟩]
        (saveFilename ("v") none)
      = some ([⟨some ("T"), ⟨some true, none, none⟩, "t1"⟩,
               ⟨none, ⟨none, some true, some ("t2")⟩, "t2"⟩].foldl mergeSpec
          (loadOrFresh emptyFS (saveFilename ("v") none) ("v") ("u") none)) :=
  ⟨by decide,
   (c3_merge_invariant_fixed_title ("v") ("u") none emptyFS
     [⟨some ("T"), ⟨some true, none, none⟩, "t1"⟩,
      ⟨none, ⟨none, some true, some ("t2")⟩, "t2"⟩] (by decide)).1⟩

/-! ### Claim C2 -/

/-- C2 fails on the code: `save_transcript` writes under
`transcripts/transcript_<id>.json` while `load_transcript_data` reads
`transcript_<id>.json` from the current directory, so a load immediately
after a successful save returns nothing, even with no title fragment
involved; the record demonstrably sits at the `transcripts/` path. -/
theorem c2_roundtrip_fails :
    load_transcript_data
      (save_transcript emptyFS ("abcdefghijk") (some ("hello")) ("u")
        ⟨some true, none, none⟩ none ("t0")).1 ("abcdefghijk") = none
    ∧ ((save_transcript emptyFS ("abcdefghijk") (some ("hello")) ("u")
        ⟨some true, none, none⟩ none ("t0")).1
        ("transcripts/transcript_abcdefghijk.json")).isSome = true := by
  decide

/-! ### Claim C1 -/

/-- Fetcher and embedder that always succeed, as in the spec's end-to-end
example. -/
def env1 : Env :=
  { fetch := fun _ => (some ("hello world"), "Test Title"), embed := fun _ => some [1] }

/-- C1 fails on the code: processing a fresh video twice with identical
inputs performs a transcript fetch and an embedding call again on the second
run, because the record persisted by the first run (under `transcripts/`) is
not found by `load_transcript_data` (which reads the current directory). -/
theorem c1_second_run_refetches :
    Event.fetch ("abcdefghijk")
      ∈ (process_video_smart env1
          (process_video_smart env1 emptyFS ("abcdefghijk") ("u") false true none ("t1")).fs
          ("abcdefghijk") ("u") false true none ("t2")).events
    ∧ Event.embedCall (some ("hello world"))
      ∈ (process_video_smart env1
          (process_video_smart env1 emptyFS ("abcdefghijk") ("u") false true none ("t1")).fs
          ("abcdefghijk") ("u") false true none ("t2")).events := by
  decide

/-! ### Claim C4 -/

/-- C4: crash-safety resume.  First part: whenever the loaded record has
`transcript_extracted` true and `embedded` false or absent, a run with
default flags performs no transcript fetch and attempts the embedding of
the stored transcript.  Second part: when no record is loaded (a fresh
run), no embedding call appears in the event trace before a save carrying
`transcript_extracted = true`. -/
theorem c4_crash_safety_resume :
    (∀ (env : Env) (fs : FileStore) (video_id url : String)
        (video_title : Option String) (now : String) (r : VideoRecord),
        load_transcript_data fs video_id = some r →
        r.status.transcript_extracted.getD false = true →
        r.status.embedded.getD false = false →
        (process_video_smart env fs video_id url false true video_title now).events.all
            (fun e => !(isFetch e)) = true
        ∧ Event.embedCall r.transcript
            ∈ (process_video_smart env fs video_id url false true video_title now).events)
    ∧ (∀ (env : Env) (fs : FileStore) (video_id url : String)
        (force_reembed do_embedding : Bool) (video_title : Option String) (now : String),
        load_transcript_data fs video_id = none →
        ((process_video_smart env fs video_id url force_reembed do_embedding video_title
            now).events.takeWhile (fun e => !(saveTE e))).all (fun e => !(isEmbedCall e))
          = true) := by
  constructor
  · intro env fs video_id url video_title now r hload hte hemb
    simp only [process_video_smart, hload, hte, hemb]
    simp only [Bool.true_and, Bool.false_and, Bool.and_false, Bool.not_false, Bool.and_true,
      Bool.false_or, if_true, if_false, Bool.true_or, Bool.or_false]
    simp only [embedStep]
    cases htr : r.transcript with
    | none => simp [truthyEmb, isFetch]
    | some t =>
      cases hE : truthyEmb (env.embed t) <;> simp [hE, isFetch]
  · intro env fs video_id url force_reembed do_embedding video_title now hload
    rcases hf : env.fetch video_id with ⟨tr, ft⟩
    cases tr with
    | none => simp [process_video_smart, hload, hf, List.takeWhile_cons, saveTE, isEmbedCall]
    | some t =>
      by_cases ht : t = "" <;>
        simp [process_video_smart, hload, hf, ht, List.takeWhile_cons, saveTE, isEmbedCall]

/-- A stored record as left behind by an interruption between transcript
save and embedding: transcript present, `transcript_extracted` true,
`embedded` absent. -/
def r0 : VideoRecord :=
  { video_id := "w1234567890", url := "u", title := "Unknown Title",
    transcript := some "body", timestamp := some "t0",
    status := { transcript_extracted := some true, embedded := none, last_embedded := none } }

/-- A store holding `r0` at the path `load_transcript_data` reads. -/
def fs4 : FileStore := fun n => if n = "transcript_w1234567890.json" then some r0 else none

/-- A fetcher/embedder pair that always succeeds. -/
def env4 : Env :=
  { fetch := fun _ => (some ("body2"), "Unknown Title"), embed := fun _ => some [1] }

/-- Witness for C4 at a concrete interrupted record and a concrete fresh
run. -/
theorem c4_crash_safety_witness :
    ((process_video_smart env4 fs4 ("w1234567890") ("u") false true none ("t1")).events.all
        (fun e => !(isFetch e)) = true
     ∧ Event.embedCall r0.transcript
        ∈ (process_video_smart env4 fs4 ("w1234567890") ("u") false true none ("t1")).events)
    ∧ ((process_video_smart env4 emptyFS ("w1234567890") ("u") false true none
        ("t1")).events.takeWhile (fun e => !(saveTE e))).all (fun e => !(isEmbedCall e))
      = true :=
  ⟨c4_crash_safety_resume.1 env4 fs4 ("w1234567890") ("u") none ("t1") r0 (by decide)
     (by decide) (by decide),
   c4_crash_safety_resume.2 env4 emptyFS ("w1234567890") ("u") false true none ("t1")
     (by decide)⟩

/-! ### Claim C5 -/

/-- Fetcher succeeds, embedder always fails. -/
def env2 : Env :=
  { fetch := fun _ => (some ("hello world"), "Unknown Title"), embed := fun _ => none }

/-- C5 fails on the code in its return-value part: on a fresh video whose
embedding call fails, no embedded status is written and the saved transcript
with `transcript_extracted = true` is intact (both as the claim says), but
`process_video_smart` returns `(None, video_id)` — not the record — because
the final re-load reads `transcript_<id>.json` while the record was saved
under `transcripts/`; callers that test the first component treat this as a
failure. -/
theorem c5_embed_failure_partial_result :
    (process_video_smart env2 emptyFS ("abcdefghijk") ("u") false true none ("t1")).ret_data
        = none
    ∧ (process_video_smart env2 emptyFS ("abcdefghijk") ("u") false true none ("t1")).ret_id
        = some ("abcdefghijk")
    ∧ ((process_video_smart env2 emptyFS ("abcdefghijk") ("u") false true none ("t1")).fs
        ("transcripts/transcript_abcdefghijk.json")).map
        (fun r => (r.transcript, r.status.transcript_extracted, r.status.embedded))
        = some (some ("hello world"), some true, none)
    ∧ Event.embedCall (some ("hello world"))
        ∈ (process_video_smart env2 emptyFS ("abcdefghijk") ("u") false true none
            ("t1")).events := by
  decide

/-! ### Claim C8 -/

/-- A three-video batch in which only the second video's fetch fails. -/
def env3 : Env :=
  { fetch := fun v => if v = "bbbbbbbbbbb" then (none, "Unknown Title")
      else (some ("text"), "Unknown Title"),
    embed := fun _ => some [1] }

/-- C8 fails on the code: in a batch of three videos where only video 2
fails its fetch (videos 1 and 3 fetch and embed successfully), the driver
reports zero processed and all three failed — instead of the claimed two
successful and one failed — because every `process_video_smart` call returns
a `None` record (its final re-load misses the `transcripts/` folder), which
the driver counts as failure. -/
theorem c8_playlist_misclassifies_success :
    (process_playlist_core env3 emptyFS (fun _ => "Unknown Title") ("PL") false true ("t0")
        [("aaaaaaaaaaa"), ("bbbbbbbbbbb"), ("ccccccccccc")]).processed = []
    ∧ (process_playlist_core env3 emptyFS (fun _ => "Unknown Title") ("PL") false true ("t0")
        [("aaaaaaaaaaa"), ("bbbbbbbbbbb"), ("ccccccccccc")]).failed
        = [("aaaaaaaaaaa"), ("bbbbbbbbbbb"), ("ccccccccccc")] := by
  decide

/-! ### Chunking lemmas -/

theorem chunkSplitGo_length (c : Nat) (hc : 0 < c) :
    ∀ (fuel : Nat) (text : List Char), text.length ≤ fuel →
      (chunkSplitGo c fuel text).length = (text.length + c - 1) / c := by
  intro fuel
  induction fuel with
  | zero =>
    intro text ht
    have h0 : text = [] := List.eq_nil_of_length_eq_zero (Nat.le_zero.mp ht)
    subst h0
    simp [chunkSplitGo, Nat.div_eq_of_lt (show c - 1 < c by omega)]
  | succ fuel ih =>
    intro text ht
    cases text with
    | nil => simp [chunkSplitGo, Nat.div_eq_of_lt (show c - 1 < c by omega)]
    | cons ch rest =>
      rw [chunkSplitGo, List.length_cons]
      have hlen : ((ch :: rest).drop c).length ≤ fuel := by
        rw [List.length_drop]
        simp only [List.length_cons] at ht ⊢
        omega
      rw [ih _ hlen, List.length_drop]
      have hR : (ch :: rest).length + c - 1 = ((ch :: rest).length - 1) + c := by
        simp only [List.length_cons]; omega
      rw [hR, Nat.add_div_right _ hc]
      congr 1
      by_cases hcl : c ≤ (ch :: rest).length
      · have he : (ch :: rest).length - c + c - 1 = (ch :: rest).length - 1 := by omega
        rw [he]
      · have h2 : (ch :: rest).length - c = 0 := by omega
        rw [h2]
        rw [Nat.div_eq_of_lt (show 0 + c - 1 < c by omega)]
        rw [Nat.div_eq_of_lt (show (ch :: rest).length - 1 < c by
          simp only [List.length_cons] at hcl ⊢; omega)]

theorem chunkSplitGo_flatten (c : Nat) (hc : 0 < c) :
    ∀ (fuel : Nat) (text : List Char), text.length ≤ fuel →
      (chunkSplitGo c fuel text).flatten = text := by
  intro fuel
  induction fuel with
  | zero =>
    intro text ht
    have h0 : text = [] := List.eq_nil_of_length_eq_zero (Nat.le_zero.mp ht)
    subst h0
    simp [chunkSplitGo]
  | succ fuel ih =>
    intro text ht
    cases text with
    | nil => simp [chunkSplitGo]
    | cons ch rest =>
      rw [chunkSplitGo]
      have hlen : ((ch :: rest).drop c).length ≤ fuel := by
        rw [List.length_drop]
        simp only [List.length_cons] at ht ⊢
        omega
      rw [List.flatten_cons, ih _ hlen, List.take_append_drop]

theorem chunkSplitGo_mem (c : Nat) :
    ∀ (fuel : Nat) (text : List Char), ∀ ch ∈ chunkSplitGo c fuel text,
      ch.length ≤ c := by
  intro fuel
  induction fuel with
  | zero =>
    intro text ch hch
    cases text <;> simp [chunkSplitGo] at hch
  | succ fuel ih =>
    intro text ch hch
    cases text with
    | nil => simp [chunkSplitGo] at hch
    | cons c0 rest =>
      rw [chunkSplitGo] at hch
      rcases List.mem_cons.mp hch with h | h
      · subst h
        rw [List.length_take]
        exact Nat.min_le_left _ _
      · exact ih _ ch h

theorem ingestLoop_count (ok : Nat → Bool) :
    ∀ (l : List (List Char)) (i count : Nat),
      ingestLoop ok l i count
        = count + ((List.range' i l.length).filter (fun j => ok j)).length := by
  intro l
  induction l with
  | nil => intro i count; simp [ingestLoop]
  | cons ch rest ih =>
    intro i count
    rw [ingestLoop, ih, List.length_cons, List.range'_succ]
    by_cases h : ok i = true
    · simp [h]
      omega
    · simp [h]

theorem chunkSplit_length (text : List Char) (c : Nat) (hc : 0 < c) :
    (chunkSplit text c).length = (text.length + c - 1) / c := by
  rw [chunkSplit, if_neg (by omega)]
  exact chunkSplitGo_length c hc text.length text le_rfl

theorem chunkSplit_flatten (text : List Char) (c : Nat) (hc : 0 < c) :
    (chunkSplit text c).flatten = text := by
  rw [chunkSplit, if_neg (by omega)]
  exact chunkSplitGo_flatten c hc text.length text le_rfl

theorem chunkSplit_mem (text : List Char) (c : Nat) :
    ∀ ch ∈ chunkSplit text c, ch.length ≤ c := by
  rw [chunkSplit]
  by_cases h : c = 0
  · simp [h]
  · rw [if_neg h]
    exact chunkSplitGo_mem c text.length text

theorem ingest_text_count (ok : Nat → Bool) (text : List Char) (c : Nat) :
    ingest_text ok text c
      = ((List.range (chunkSplit text c).length).filter (fun j => ok j)).length := by
  rw [ingest_text, ingestLoop_count, List.range_eq_range']
  simp

theorem filter_range_lt : ∀ (n k : Nat), k ≤ n →
    ((List.range n).filter (fun j => decide (j < k))).length = k := by
  intro n
  induction n with
  | zero =>
    intro k hk
    have h0 : k = 0 := Nat.le_zero.mp hk
    subst h0
    simp
  | succ n ih =>
    intro k hk
    by_cases h : k ≤ n
    · rw [List.range_succ, List.filter_append, List.length_append, ih k h]
      have hn : ¬ (n < k) := by omega
      simp [hn]
    · have hk1 : k = n + 1 := by omega
      subst hk1
      rw [List.filter_eq_self.mpr, List.length_range]
      intro a ha
      have : a < n + 1 := List.mem_range.mp ha
      simp [this]

/-! ### Claim C6 -/

/-- C6: for text of length L > 0 and chunk size C > 0, `ingest_text` splits
the text into exactly `ceil(L / C)` chunks in original order, each at most C
characters, whose in-order concatenation is the original text, and returns
the number of chunks actually written (given the per-chunk success oracle
`ok`). -/
theorem c6_chunking (text : List Char) (chunk_size : Nat)
    (_hL : 0 < text.length) (hc : 0 < chunk_size) :
    (chunkSplit text chunk_size).length = (text.length + chunk_size - 1) / chunk_size
    ∧ (∀ ch ∈ chunkSplit text chunk_size, ch.length ≤ chunk_size)
    ∧ (chunkSplit text chunk_size).flatten = text
    ∧ ∀ ok : Nat → Bool, ingest_text ok text chunk_size
        = ((List.range (chunkSplit text chunk_size).length).filter (fun j => ok j)).length :=
  ⟨chunkSplit_length text chunk_size hc, chunkSplit_mem text chunk_size,
   chunkSplit_flatten text chunk_size hc, fun ok => ingest_text_count ok text chunk_size⟩

/-- Witness for C6: the three-character text with chunk size two. -/
theorem c6_chunking_witness :
    0 < (['a', 'b', 'c'] : List Char).length
    ∧ (chunkSplit (['a', 'b', 'c']) 2).length
        = ((['a', 'b', 'c'] : List Char).length + 2 - 1) / 2
    ∧ (chunkSplit (['a', 'b', 'c']) 2).flatten = ['a', 'b', 'c'] :=
  ⟨by decide, (c6_chunking (['a', 'b', 'c']) 2 (by decide) (by decide)).1,
   (c6_chunking (['a', 'b', 'c']) 2 (by decide) (by decide)).2.2.1⟩

/-! ### Claim C10 -/

/-- C10: `ingest_text` is total (the model is a function, matching the
per-chunk try/except in the source), its return value counts exactly the
successfully written chunks — a failed chunk is skipped while every later
index is still attempted — the count never exceeds `ceil(L / C)`, and every
value from 0 up to `ceil(L / C)` is realized by some failure pattern, so the
count need not equal the number of split chunks. -/
theorem c10_ingest_failure_isolation (text : List Char) (chunk_size : Nat)
    (hc : 0 < chunk_size) :
    (∀ ok : Nat → Bool, ingest_text ok text chunk_size
        = ((List.range (chunkSplit text chunk_size).length).filter (fun j => ok j)).length)
    ∧ (∀ ok : Nat → Bool, ingest_text ok text chunk_size
        ≤ (text.length + chunk_size - 1) / chunk_size)
    ∧ ∀ k, k ≤ (text.length + chunk_size - 1) / chunk_size →
        ∃ ok : Nat → Bool, ingest_text ok text chunk_size = k := by
  refine ⟨fun ok => ingest_text_count ok text chunk_size, fun ok => ?_, fun k hk => ?_⟩
  · rw [ingest_text_count, ← chunkSplit_length text chunk_size hc]
    calc ((List.range (chunkSplit text chunk_size).length).filter (fun j => ok j)).length
        ≤ (List.range (chunkSplit text chunk_size).length).length :=
          List.length_filter_le _ _
      _ = (chunkSplit text chunk_size).length := List.length_range _
  · refine ⟨fun j => decide (j < k), ?_⟩
    rw [ingest_text_count, filter_range_lt]
    rw [chunkSplit_length text chunk_size hc]
    exact hk

/-- Witness for C10: an all-failing oracle on the three-character text. -/
theorem c10_ingest_witness :
    0 < 2
    ∧ ingest_text (fun _ => false) (['a', 'b', 'c']) 2
        = ((List.range (chunkSplit (['a', 'b', 'c']) 2).length).filter
            (fun j => (fun _ => false) j)).length :=
  ⟨by decide,
   (c10_ingest_failure_isolation (['a', 'b', 'c']) 2 (by decide)).1 (fun _ => false)⟩

/-! ### Claim C7 -/

/-- A transcript that equals its own first 4000 characters followed by the
truncation marker. -/
def badTranscript : List Char := List.replicate 4000 'a' ++ truncMarker

theorem badTranscript_length : badTranscript.length = 4003 := by
  rw [badTranscript, List.length_append, List.length_replicate]
  rfl

/-- C7 fails in its "never the full transcript" clause: for the 4003-character
transcript consisting of 4000 `a`s followed by `...`, the truncated context
equals the full transcript. -/
theorem c7_context_can_equal_transcript :
    4000 < badTranscript.length ∧ qaContext badTranscript = badTranscript := by
  constructor
  · rw [badTranscript_length]
    omega
  · have h : badTranscript.length > max_context_length := by
      rw [badTranscript_length]
      decide
    rw [qaContext, if_pos h]
    have ht : badTranscript.take max_context_length = List.replicate 4000 'a' := by
      rw [badTranscript]
      rw [show max_context_length = (List.replicate 4000 'a').length by
        rw [List.length_replicate]; rfl]
      exact List.take_left _ _
    rw [ht, badTranscript]

/-- C7 (amended): the direct-transcript context is the transcript itself
when its length is at most 4000, and otherwise exactly the first 4000
characters followed by the fixed marker `...` (so its length is then
exactly 4003); in the truncated case the context coincides with the full
transcript only in the degenerate case where the transcript equals its own
first 4000 characters followed by the marker. -/
theorem c7_truncation (t : List Char) :
    (t.length ≤ max_context_length → qaContext t = t)
    ∧ (max_context_length < t.length →
        qaContext t = t.take max_context_length ++ truncMarker
        ∧ (qaContext t).length = max_context_length + 3
        ∧ (qaContext t = t → t = t.take max_context_length ++ truncMarker)) := by
  constructor
  · intro h
    rw [qaContext, if_neg (Nat.not_lt.mpr h)]
  · intro h
    have hq : qaContext t = t.take max_context_length ++ truncMarker := by
      rw [qaContext, if_pos h]
    refine ⟨hq, ?_, ?_⟩
    · rw [hq, List.length_append, List.length_take, Nat.min_eq_left (Nat.le_of_lt h)]
      rfl
    · intro he
      exact he.symm.trans hq

/-- Witness for C7: a short transcript is passed through unchanged; a long
one is cut to the budget plus marker. -/
theorem c7_truncation_witness :
    qaContext (['a']) = ['a']
    ∧ qaContext badTranscript = badTranscript.take max_context_length ++ truncMarker :=
  ⟨(c7_truncation (['a'])).1 (by decide),
   ((c7_truncation badTranscript).2 (by
      rw [badTranscript_length]
      decide)).1⟩

/-! ### Claim C9 -/

/-- C9 (amended): a create call is issued exactly when the listing call
fails or no corpus with the display name appears among the first listed
page (ten corpora); when one appears there, its handle is returned and no
create call is issued; and a single call grows the remote corpus list by at
most one. -/
theorem c9_first_page_get_or_create (corpora : List Corpus) (listOk createOk : Bool)
    (newName display_name : String) :
    ((get_or_create_corpus corpora listOk createOk newName display_name).created
        = !(listOk && (corpora.take 10).any (fun c => c.display_name == display_name)))
    ∧ (∀ c : Corpus, listOk = true →
        (corpora.take 10).find? (fun c2 => c2.display_name == display_name) = some c →
        (get_or_create_corpus corpora listOk createOk newName display_name).handle
            = some c.name
        ∧ (get_or_create_corpus corpora listOk createOk newName display_name).created
            = false)
    ∧ (get_or_create_corpus corpora listOk createOk newName display_name).corpora.length
        ≤ corpora.length + 1 := by
  cases listOk with
  | false =>
    refine ⟨?_, ?_, ?_⟩
    · cases createOk <;> simp [get_or_create_corpus]
    · intro c hlist
      exact absurd hlist (by simp)
    · cases createOk <;> simp [get_or_create_corpus]
  | true =>
    cases hf : (corpora.take 10).find? (fun c2 => c2.display_name == display_name) with
    | none =>
      have hany : ((corpora.take 10).any (fun c => c.display_name == display_name))
          = false := by
        rw [Bool.eq_false_iff]
        intro hcontra
        rcases List.any_eq_true.mp hcontra with ⟨x, hx, hpx⟩
        exact (List.find?_eq_none.mp hf x hx) hpx
      refine ⟨?_, ?_, ?_⟩
      · cases createOk <;> simp [get_or_create_corpus, hf, hany]
      · intro c _ hsome
        exact absurd hsome (by simp)
      · cases createOk <;> simp [get_or_create_corpus, hf]
    | some c0 =>
      have hmem := List.mem_of_find?_eq_some hf
      have hp := List.find?_some hf
      have hany : ((corpora.take 10).any (fun c => c.display_name == display_name))
          = true :=
        List.any_eq_true.mpr ⟨c0, hmem, hp⟩
      refine ⟨?_, ?_, ?_⟩
      · simp [get_or_create_corpus, hf, hany]
      · intro c _ hsome
        injection hsome with hc
        subst hc
        simp [get_or_create_corpus, hf]
      · simp [get_or_create_corpus, hf]

/-- A remote list of eleven corpora whose last entry carries the requested
display name. -/
def corpora11 : List Corpus :=
  [⟨"n00", "d00"⟩, ⟨"n01", "d01"⟩, ⟨"n02", "d02"⟩, ⟨"n03", "d03"⟩, ⟨"n04", "d04"⟩,
   ⟨"n05", "d05"⟩, ⟨"n06", "d06"⟩, ⟨"n07", "d07"⟩, ⟨"n08", "d08"⟩, ⟨"n09", "d09"⟩,
   ⟨"n10", "d10"⟩]

/-- C9 fails as stated: the listing request uses `page_size = 10` and only
that first page is scanned, so when the corpus with the requested display
name is the eleventh entry of the remote list, a create call is issued and
a second corpus with that display name comes into existence. -/
theorem c9_eleventh_corpus_duplicated :
    (∃ c ∈ corpora11, c.display_name = "d10")
    ∧ (get_or_create_corpus corpora11 true true ("newN") ("d10")).created = true
    ∧ (get_or_create_corpus corpora11 true true ("newN") ("d10")).corpora.length
        = corpora11.length + 1 := by
  decide

/-- A one-corpus remote list matching the requested display name. -/
def corporaW : List Corpus := [⟨"nA", "dA"⟩]

/-- Witness for C9: with the matching corpus on the first page, its handle
is returned and nothing is created. -/
theorem c9_get_or_create_witness :
    (get_or_create_corpus corporaW true true ("nB") ("dA")).handle = some ("nA")
    ∧ (get_or_create_corpus corporaW true true ("nB") ("dA")).created = false :=
  (c9_first_page_get_or_create corporaW true true ("nB") ("dA")).2.1 ⟨"nA", "dA"⟩ rfl
    (by decide)

end GFS
